import Mathlib

/-!
Shallow embedding of `storm_analysis/dbscan/clusters_sa_h5py.py` (class
`SAH5Clusters`).  The HDF5 "clusters" group is modelled as an optional
`ClustersGrp` value inside an `H5State`; numpy arrays are modelled as lists of
integers carrying a dtype tag; Python dictionaries are association lists in
insertion order; Python exceptions (KeyError, TypeError, ValueError, failed
assert) are modelled with `Except String`.  Out-of-range numpy indexing inside
the reconstruction loop is modelled with `List.getD` defaults; the theorems
that talk about those paths carry in-bounds hypotheses.
-/

namespace StormClusters

/-- A numpy array: a dtype tag plus the element data (elements modelled as
integers; the partition/reconstruct logic never computes with the values). -/
structure NpArray where
  dtype : String
  vals : List Int
deriving DecidableEq, Repr

/-- A Python dict from field name to numpy array, in insertion order. -/
abbrev Dict := List (String × NpArray)

/-- One HDF5 cluster group `cl_k`: its datasets and its `cl_size` attribute
(`none` models an attribute that was never written). -/
structure ClusterGroup where
  dsets : Dict
  cl_size : Option Int
deriving DecidableEq, Repr

/-- The HDF5 "clusters" group: child groups keyed by name in creation order,
plus the `n_clusters` and `info` attributes (absent attributes are `none`). -/
structure ClustersGrp where
  groups : List (String × ClusterGroup)
  n_clusters : Option Int
  info : Option String
deriving DecidableEq, Repr

/-- The part of the HDF5 file state the cluster code touches: the optional
"clusters" group. -/
structure H5State where
  clusters : Option ClustersGrp
deriving DecidableEq, Repr

/-- `hasClusters`: `"clusters" in self.hdf5`. -/
def hasClusters (st : H5State) : Bool :=
  st.clusters.isSome

/-- `getClusters`: `self.hdf5["clusters"]`; raises `KeyError` when the group
does not exist. -/
def getClusters (st : H5State) : Except String ClustersGrp :=
  match st.clusters with
  | some gs => .ok gs
  | none => .error "KeyError: clusters"

/-- `getClusterName`: `"cl_" + str(index)`. -/
def getClusterName (index : Int) : String :=
  "cl_" ++ toString index

/-- `cluster_id == i`, the element-wise numpy boolean mask. -/
def eqMask (a : List Int) (i : Int) : List Bool :=
  a.map (fun x => x == i)

/-- Numpy boolean-mask selection `xs[mask]` (for `xs` and `mask` of equal
length): keep the entries whose mask bit is true, in order. -/
def boolMask (mask : List Bool) (xs : List Int) : List Int :=
  ((xs.zip mask).filter (fun p => p.2)).map (fun p => p.1)

/-- One iteration of the `for i in range(start, end)` loop of `addClusters`:
if the mask for id `i` is non-empty, create the group `cl_<counter>` holding
every auxiliary field masked by `cluster_id == i` and the `cl_size` attribute,
and bump the counter. -/
def partitionStep (cluster_id : List Int) (cluster_data : Dict)
    (acc : List (String × ClusterGroup) × Nat) (i : Int) :
    List (String × ClusterGroup) × Nat :=
  let cl_mask := eqMask cluster_id i
  let cl_size := cl_mask.count true
  if 0 < cl_size then
    (acc.1 ++ [(getClusterName (acc.2 : Int),
      { dsets := cluster_data.map
          (fun p => (p.1, { dtype := p.2.dtype, vals := boolMask cl_mask p.2.vals })),
        cl_size := some (cl_size : Int) })],
     acc.2 + 1)
  else
    acc

/-- The integer list `[lo, lo+1, ..., hi-1]` (Python `range(lo, hi)`). -/
def intRange (lo hi : Int) : List Int :=
  (List.range (hi - lo).toNat).map (fun (k : Nat) => lo + (k : Int))

/-- `addClusters(cluster_id, cluster_data)`.  Returns the resulting file state
together with `some message` when a Python exception escapes.  Mirrors the
source order: delete any existing container, create a fresh empty one, THEN
run the size asserts, then `amin`/`amax` (which raise on an empty array), then
the partition loop, finally write the `n_clusters` attribute. -/
def addClusters (st : H5State) (cluster_id : List Int) (cluster_data : Dict) :
    H5State × Option String :=
  -- delete off clustering information, if any, and create a fresh group
  let st1 : H5State := { clusters := some { groups := [], n_clusters := none, info := none } }
  -- check that arrays are the correct size (assert fires on the first bad field)
  match cluster_data.find? (fun p => p.2.vals.length != cluster_id.length) with
  | some p => (st1, some ("Incorrect size for data " ++ p.1))
  | none =>
    match cluster_id.min?, cluster_id.max? with
    | some lo, some hi =>
      let r := (intRange lo (hi + 1)).foldl (partitionStep cluster_id cluster_data) ([], 0)
      ({ clusters := some { groups := r.1, n_clusters := some ((r.2 : Int) - 1), info := none } },
       none)
    | _, _ => (st1, some "ValueError: zero-size array reduction operation minimum")

/-- `getNClusters`: read the `n_clusters` attribute (KeyError when absent). -/
def getNClusters (st : H5State) : Except String Int := do
  let gs ← getClusters st
  match gs.n_clusters with
  | some n => .ok n
  | none => .error "KeyError: n_clusters"

/-- `getClusterGroup(index)`: membership test on the child name, then the
lookup; falls through (returns `None`) when the name is absent. -/
def getClusterGroup (st : H5State) (index : Int) :
    Except String (Option ClusterGroup) := do
  let gs ← getClusters st
  let cl_name := getClusterName index
  if (gs.groups.map (fun p => p.1)).contains cl_name then
    return gs.groups.lookup cl_name
  else
    return none

/-- `getCluster(group)`: read every dataset of the group into a dict.
Iterating over Python `None` (a missing group) raises `TypeError`. -/
def getCluster (group : Option ClusterGroup) : Except String Dict :=
  match group with
  | none => .error "TypeError: argument of type NoneType is not iterable"
  | some grp => .ok grp.dsets

/-- The Record Store collaborator used by reconstruction: random single-group
lookup of localizations by frame and of tracks by track index, with an
optional field-subset request.  (The `drift_corrected = True` flag passed by
the source selects which store datasets are read; it does not affect the
control flow modelled here, so it is folded into the store functions.) -/
structure LocStore where
  getLocalizationsInFrame : Int → Option (List String) → Dict
  getTracksByIndex : Int → Option (List String) → Dict

/-- Total model of the Python dict read `d[k]` (the theorems assume the key is
present; a missing key would raise KeyError in Python). -/
def dictGet (d : Dict) (k : String) : NpArray :=
  (d.lookup k).getD { dtype := "", vals := [] }

/-- The `if not cl:` allocation of `getClusterData`: one fresh zero array of
length `n` per looked-up field, dtype taken from that lookup. -/
def allocZeros (n : Nat) (locs : Dict) : Dict :=
  locs.map (fun p => (p.1, { dtype := p.2.dtype, vals := List.replicate n 0 }))

/-- The assignment `cl[field][i] = v` (a missing field, which raises KeyError
in Python, is a no-op here; the theorems assume consistent field sets). -/
def writeAt (cl : Dict) (f : String) (i : Nat) (v : Int) : Dict :=
  cl.map (fun p =>
    if p.1 == f then (p.1, { dtype := p.2.dtype, vals := p.2.vals.set i v }) else p)

/-- One iteration of the reconstruction loop of `getClusterData`: look up the
record group at `keys[i]`, allocate the output arrays when `cl` is still
empty, and write the value at offset `locIds[i]` of every looked-up field into
position `i`. -/
def joinStep (lk : Int → Dict) (keys locIds : List Int) (n : Nat)
    (cl : Dict) (i : Nat) : Dict :=
  let locs := lk (keys.getD i 0)
  let cl := if cl.isEmpty then allocZeros n locs else cl
  locs.foldl
    (fun cl p => writeAt cl p.1 i (p.2.vals.getD (locIds.getD i 0).toNat 0))
    cl

/-- The reconstruction loop of `getClusterData`, over member positions
`0 .. n-1`, starting from the empty dict. -/
def joinFold (lk : Int → Dict) (keys locIds : List Int) (n : Nat) : Dict :=
  (List.range n).foldl (joinStep lk keys locIds n) []

/-- Python dict assignment `d[k] = v`: overwrite in place when the key exists,
append otherwise. -/
def dictSet (d : Dict) (k : String) (v : NpArray) : Dict :=
  if d.any (fun p => p.1 == k) then
    d.map (fun p => if p.1 == k then (k, v) else p)
  else
    d ++ [(k, v)]

/-- The final merge of `getClusterData`: `for field in cl_dict: cl[field] =
cl_dict[field]`. -/
def mergeDict (cl cl_dict : Dict) : Dict :=
  cl_dict.foldl (fun acc p => dictSet acc p.1 p.2) cl

/-- `getClusterData(index, fields)`: load the cross-reference dict, return an
empty dict when it is empty, otherwise detect the mode by the presence of a
`frame` field, run the reconstruction loop against the record store, and merge
the raw cross-reference fields into the result. -/
def getClusterData (store : LocStore) (st : H5State) (index : Int)
    (fields : Option (List String)) : Except String Dict := do
  let grp ← getClusterGroup st index
  let cl_dict ← getCluster grp
  if cl_dict.isEmpty then
    return []
  else
    let joined :=
      if (cl_dict.map (fun p => p.1)).contains "frame" then
        let frames := (dictGet cl_dict "frame").vals
        joinFold (fun v => store.getLocalizationsInFrame v fields)
          frames (dictGet cl_dict "loc_id").vals frames.length
      else
        let track_ids := (dictGet cl_dict "track_id").vals
        joinFold (fun v => store.getTracksByIndex v fields)
          track_ids (dictGet cl_dict "loc_id").vals track_ids.length
    return mergeDict joined cl_dict

/-- The body of the `for i in range(start, n_clusters + 1)` loop of
`clustersIterator`, fully consumed: look up the group (reading `.attrs` of
`None` raises), read its `cl_size` attribute, and when it is strictly larger
than `min_size` yield `(i, getClusterData(i, fields))`. -/
def iterLoop (store : LocStore) (st : H5State) (fields : Option (List String))
    (min_size : Int) : List Int → Except String (List (Int × Dict))
  | [] => .ok []
  | i :: rest => do
    let grp ← getClusterGroup st i
    match grp with
    | none => .error "AttributeError: NoneType object has no attribute attrs"
    | some cl_grp =>
      match cl_grp.cl_size with
      | none => .error "KeyError: cl_size"
      | some sz =>
        if min_size < sz then do
          let d ← getClusterData store st i fields
          let tail ← iterLoop store st fields min_size rest
          return (i, d) :: tail
        else
          iterLoop store st fields min_size rest

/-- `clustersIterator(fields, min_size, skip_unclustered)`: empty when no
clusters group exists; otherwise traverse indices `start .. n_clusters`
inclusive with `start = 1` when skipping the unclustered group, else `0`. -/
def clustersIterator (store : LocStore) (st : H5State)
    (fields : Option (List String)) (min_size : Int) (skip_unclustered : Bool) :
    Except String (List (Int × Dict)) :=
  if !hasClusters st then
    .ok []
  else do
    let n ← getNClusters st
    let start : Int := if skip_unclustered then 1 else 0
    iterLoop store st fields min_size (intRange start (n + 1))

/-- `setClusteringInfo(info)`: write the `info` attribute of the clusters
group (raises when no clusters group exists). -/
def setClusteringInfo (st : H5State) (info : String) : Except String H5State := do
  let gs ← getClusters st
  return { st with clusters := some { gs with info := some info } }

/-- `getClusteringInfo()`: read the `info` attribute of the clusters group
(raises when no clusters group exists, or when the attribute was never set). -/
def getClusteringInfo (st : H5State) : Except String String := do
  let gs ← getClusters st
  match gs.info with
  | some s => .ok s
  | none => .error "KeyError: info"

/-! ### Model of `getDataForClustering` -/

/-- One group yielded by `tracksIterator` / `localizationsIterator`: the
requested per-record fields (positions as exact rationals standing for the
store's floating point data, categories as integers). -/
structure FieldBlock where
  x : List ℚ
  y : List ℚ
  z : List ℚ
  category : List Int
deriving DecidableEq, Repr

/-- The Record Store data consumed by `getDataForClustering`: the pixel-size
calibration factor, the `hasTracks` predicate, the reported totals, and the
streams of track groups and of `(frame number, localization group)` pairs. -/
structure ClStore where
  pixelSize : ℚ
  hasTracksB : Bool
  nTracks : Nat
  nLocalizations : Nat
  tracks : List FieldBlock
  locFrames : List (Int × FieldBlock)
deriving DecidableEq, Repr

/-- Numpy slice assignment `arr[start:start+vals.length] = vals` (for writes
that fit inside the array; an oversized write raises in numpy and the theorems
assume the store's totals are consistent). -/
def writeSlice {α : Type} (arr : List α) (start : Nat) (vals : List α) : List α :=
  arr.take start ++ vals ++ arr.drop (start + vals.length)

/-- The mutable loop state of the track branch of `getDataForClustering`. -/
structure TrackFill where
  start : Nat
  loc_id : List Int
  track_id : List Int
  x : List ℚ
  y : List ℚ
  z : List ℚ
  c : List Int
deriving DecidableEq, Repr

/-- One iteration of the track branch: slice-write the cross-reference ids,
the calibrated positions and the categories of one track group. -/
def trackStep (pix : ℚ) (ignore_z : Bool) (s : TrackFill) (p : Nat × FieldBlock) :
    TrackFill :=
  let n := p.2.x.length
  { start := s.start + n
    loc_id := writeSlice s.loc_id s.start ((List.range n).map (fun (k : Nat) => (k : Int)))
    track_id := writeSlice s.track_id s.start (List.replicate n (p.1 : Int))
    x := writeSlice s.x s.start (p.2.x.map (fun v => v * pix))
    y := writeSlice s.y s.start (p.2.y.map (fun v => v * pix))
    z := if !ignore_z then writeSlice s.z s.start (p.2.z.map (fun v => v * 1000)) else s.z
    c := writeSlice s.c s.start p.2.category }

/-- The mutable loop state of the localization branch of
`getDataForClustering`. -/
structure LocFill where
  start : Nat
  frame : List Int
  loc_id : List Int
  x : List ℚ
  y : List ℚ
  z : List ℚ
  c : List Int
deriving DecidableEq, Repr

/-- One iteration of the localization branch. -/
def locStep (pix : ℚ) (ignore_z : Bool) (s : LocFill) (p : Int × FieldBlock) :
    LocFill :=
  let n := p.2.x.length
  { start := s.start + n
    frame := writeSlice s.frame s.start (List.replicate n p.1)
    loc_id := writeSlice s.loc_id s.start ((List.range n).map (fun (k : Nat) => (k : Int)))
    x := writeSlice s.x s.start (p.2.x.map (fun v => v * pix))
    y := writeSlice s.y s.start (p.2.y.map (fun v => v * pix))
    z := if !ignore_z then writeSlice s.z s.start (p.2.z.map (fun v => v * 1000)) else s.z
    c := writeSlice s.c s.start p.2.category }

/-- The `[x, y, z, c, cluster_data]` value returned by
`getDataForClustering`. -/
structure ClusteringData where
  x : List ℚ
  y : List ℚ
  z : List ℚ
  c : List Int
  cluster_data : List (String × List Int)
deriving DecidableEq, Repr

/-- `getDataForClustering(ignore_z)`: choose the track branch when the store
reports tracks, else the localization branch; preallocate zero arrays sized to
the reported total; stream the groups once, slice-writing calibrated x/y (and
z only when `ignore_z` is false) plus the cross-reference ids. -/
def getDataForClustering (store : ClStore) (ignore_z : Bool) : ClusteringData :=
  let pix_to_nm := store.pixelSize
  if store.hasTracksB then
    let total := store.nTracks
    let init : TrackFill :=
      { start := 0
        loc_id := List.replicate total 0
        track_id := List.replicate total 0
        x := List.replicate total 0
        y := List.replicate total 0
        z := List.replicate total 0
        c := List.replicate total 0 }
    let r := store.tracks.enum.foldl (trackStep pix_to_nm ignore_z) init
    { x := r.x, y := r.y, z := r.z, c := r.c
      cluster_data := [("loc_id", r.loc_id), ("track_id", r.track_id)] }
  else
    let total := store.nLocalizations
    let init : LocFill :=
      { start := 0
        frame := List.replicate total 0
        loc_id := List.replicate total 0
        x := List.replicate total 0
        y := List.replicate total 0
        z := List.replicate total 0
        c := List.replicate total 0 }
    let r := store.locFrames.foldl (locStep pix_to_nm ignore_z) init
    { x := r.x, y := r.y, z := r.z, c := r.c
      cluster_data := [("frame", r.frame), ("loc_id", r.loc_id)] }

/-! ### Specification-side descriptions used by the theorems -/

/-- The cross-reference group the spec prescribes for cluster id `i`: every
auxiliary field masked by `assignment == i`, with `size` equal to the number
of records carrying id `i`. -/
def specGroup (a : List Int) (b : Dict) (i : Int) : ClusterGroup :=
  { dsets := b.map
      (fun p => (p.1, { dtype := p.2.dtype, vals := boolMask (eqMask a i) p.2.vals }))
    cl_size := some ((a.count i : Int)) }

/-- The ids in `[min a, max a]` whose membership mask is non-empty, in
ascending order. -/
def presentIds (a : List Int) : List Int :=
  match a.min?, a.max? with
  | some lo, some hi => (intRange lo (hi + 1)).filter (fun i => 0 < a.count i)
  | _, _ => []

/-! ### Helper lemmas -/

theorem int_min?_eq_some_iff {l : List Int} {a : Int} :
    l.min? = some a ↔ a ∈ l ∧ ∀ b ∈ l, a ≤ b :=
  @List.min?_eq_some_iff _ _ _ _ ⟨fun h h2 => le_antisymm h h2⟩ le_refl
    (fun a b => min_choice a b) (fun _ _ _ => le_min_iff) _

theorem int_max?_eq_some_iff {l : List Int} {a : Int} :
    l.max? = some a ↔ a ∈ l ∧ ∀ b ∈ l, b ≤ a :=
  @List.max?_eq_some_iff _ _ _ _ ⟨fun h h2 => le_antisymm h h2⟩ le_refl
    (fun a b => max_choice a b) (fun _ _ _ => max_le_iff) _

theorem mem_intRange {lo hi j : Int} : j ∈ intRange lo hi ↔ lo ≤ j ∧ j < hi := by
  simp only [intRange, List.mem_map, List.mem_range]
  constructor
  · rintro ⟨k, hk, rfl⟩
    omega
  · intro ⟨h1, h2⟩
    exact ⟨(j - lo).toNat, by omega, by omega⟩

theorem intRange_nodup (lo hi : Int) : (intRange lo hi).Nodup := by
  refine List.Nodup.map ?_ (List.nodup_range _)
  intro x y h
  simp only at h
  omega

theorem count_eqMask (a : List Int) (i : Int) :
    (eqMask a i).count true = a.count i := by
  simp only [eqMask, List.count, List.countP_map]
  congr 1
  funext x
  simp [Function.comp]

theorem foldl_partitionStep (a : List Int) (b : Dict) :
    ∀ (ids : List Int) (acc : List (String × ClusterGroup)) (k : Nat),
      ids.foldl (partitionStep a b) (acc, k) =
        (acc ++ (List.enumFrom k (ids.filter (fun i => 0 < a.count i))).map
            (fun p => (getClusterName (p.1 : Int), specGroup a b p.2)),
         k + (ids.filter (fun i => 0 < a.count i)).length)
  | [], acc, k => by simp
  | i :: rest, acc, k => by
    by_cases h : 0 < a.count i
    · have hmask : 0 < (eqMask a i).count true := by rw [count_eqMask]; exact h
      have hstep : partitionStep a b (acc, k) i =
          (acc ++ [(getClusterName (k : Int), specGroup a b i)], k + 1) := by
        simp only [partitionStep, count_eqMask, specGroup]
        rw [if_pos h]
      rw [List.foldl_cons, hstep, foldl_partitionStep a b rest _ (k + 1),
        List.filter_cons_of_pos (by simpa using h), List.enumFrom_cons]
      simp only [List.map_cons, List.length_cons, List.append_assoc,
        List.singleton_append]
      rw [Prod.mk.injEq]
      exact ⟨rfl, by omega⟩
    · have hmask : ¬ 0 < (eqMask a i).count true := by rw [count_eqMask]; exact h
      have hstep : partitionStep a b (acc, k) i = (acc, k) := by
        simp only [partitionStep, if_neg hmask]
      rw [List.foldl_cons, hstep, foldl_partitionStep a b rest acc k,
        List.filter_cons_of_neg (by simpa using h)]

theorem mem_presentIds {a : List Int} {lo hi : Int}
    (hlo : a.min? = some lo) (hhi : a.max? = some hi) {i : Int} :
    i ∈ presentIds a ↔ i ∈ a := by
  obtain ⟨hlomem, hlole⟩ := int_min?_eq_some_iff.mp hlo
  obtain ⟨himem, hile⟩ := int_max?_eq_some_iff.mp hhi
  simp only [presentIds, hlo, hhi, List.mem_filter, mem_intRange, decide_eq_true_eq]
  constructor
  · rintro ⟨-, hc⟩
    exact List.count_pos_iff.mp hc
  · intro hmem
    refine ⟨⟨hlole i hmem, ?_⟩, List.count_pos_iff.mpr hmem⟩
    have := hile i hmem
    omega

theorem presentIds_nodup (a : List Int) : (presentIds a).Nodup := by
  unfold presentIds
  cases h1 : a.min? <;> cases h2 : a.max? <;> simp only [List.nodup_nil]
  exact (intRange_nodup _ _).filter _

theorem length_presentIds {a : List Int} {lo hi : Int}
    (hlo : a.min? = some lo) (hhi : a.max? = some hi) :
    (presentIds a).length = a.dedup.length := by
  have h1 : (presentIds a).toFinset = a.dedup.toFinset := by
    ext x
    simp [List.mem_toFinset, mem_presentIds hlo hhi, List.mem_dedup]
  have h2 := List.toFinset_card_of_nodup (presentIds_nodup a)
  have h3 := List.toFinset_card_of_nodup (List.nodup_dedup a)
  rw [← h2, ← h3, h1]

theorem getD_eqMask {a : List Int} {i : Int} {j : Nat} (hj : j < a.length) :
    (eqMask a i).getD j false = (a.getD j 0 == i) := by
  have hj' : j < (eqMask a i).length := by simpa [eqMask] using hj
  rw [List.getD_eq_getElem _ _ hj', List.getD_eq_getElem _ _ hj]
  simp [eqMask]

/-- Shape of a successful `addClusters` run: the container holds exactly the
spec groups of the present ids, densely named in ascending id order, and the
`n_clusters` attribute is the number of groups minus one. -/
theorem addClusters_ok {st : H5State} {a : List Int} {b : Dict} {lo hi : Int}
    (hlo : a.min? = some lo) (hhi : a.max? = some hi)
    (hb : ∀ p ∈ b, p.2.vals.length = a.length) :
    addClusters st a b =
      ({ clusters := some
          { groups := (presentIds a).enum.map
              (fun p => (getClusterName (p.1 : Int), specGroup a b p.2))
            n_clusters := some (((presentIds a).length : Int) - 1)
            info := none } }, none) := by
  have hfind : b.find? (fun p => p.2.vals.length != a.length) = none := by
    rw [List.find?_eq_none]
    intro p hp
    simp [hb p hp]
  have hpres : presentIds a = (intRange lo (hi + 1)).filter (fun i => 0 < a.count i) := by
    simp [presentIds, hlo, hhi]
  simp only [addClusters, hfind, hlo, hhi, foldl_partitionStep, List.nil_append,
    hpres, List.enum, Nat.zero_add]

/-- Helper: a non-empty list has `some` minimum and maximum. -/
theorem min?_max?_isSome {a : List Int} (ha : a ≠ []) :
    ∃ lo hi, a.min? = some lo ∧ a.max? = some hi := by
  cases hlo : a.min? with
  | none => exact absurd (List.min?_eq_none_iff.mp hlo) ha
  | some lo =>
    cases hhi : a.max? with
    | none => exact absurd (List.max?_eq_none_iff.mp hhi) ha
    | some hi => exact ⟨lo, hi, rfl, rfl⟩

/-! ### Claim theorems -/

/-- C1: for every non-empty cluster assignment `a` and auxiliary bundle `b`
whose sequences all have the same length as `a`, after `addClusters(a, b)` the
output groups are exactly the masked subsequences of `b` for each id in
`[min a, max a]` whose mask is non-empty (`presentIds a`), assigned dense
output indices in ascending id order starting at 0, each carrying
`cl_size = count of records with that id`; and every record position `j`
belongs to the mask of exactly one output group. -/
theorem addClusters_partitions (st : H5State) (a : List Int) (b : Dict)
    (ha : a ≠ []) (hb : ∀ p ∈ b, p.2.vals.length = a.length) :
    ∃ gs : ClustersGrp,
      (addClusters st a b).1.clusters = some gs ∧
      (addClusters st a b).2 = none ∧
      gs.groups = (presentIds a).enum.map
        (fun p => (getClusterName (p.1 : Int), specGroup a b p.2)) ∧
      (∀ j, j < a.length →
        ∃! k : Nat, ∃ hk : k < (presentIds a).length,
          (eqMask a ((presentIds a).get ⟨k, hk⟩)).getD j false = true) := by
  obtain ⟨lo, hi, hlo, hhi⟩ := min?_max?_isSome ha
  rw [addClusters_ok hlo hhi hb]
  refine ⟨_, rfl, rfl, rfl, ?_⟩
  intro j hj
  have hmem : a.getD j 0 ∈ a := by
    rw [List.getD_eq_getElem _ _ hj]
    exact List.getElem_mem _
  have hmemP : a.getD j 0 ∈ presentIds a := (mem_presentIds hlo hhi).mpr hmem
  obtain ⟨⟨k, hk⟩, hget⟩ := List.mem_iff_get.mp hmemP
  refine ⟨k, ⟨hk, ?_⟩, ?_⟩
  · rw [getD_eqMask hj, hget]
    exact beq_self_eq_true _
  · rintro k' ⟨hk', hmask'⟩
    rw [getD_eqMask hj] at hmask'
    have heq : (presentIds a).get ⟨k', hk'⟩ = (presentIds a).get ⟨k, hk⟩ := by
      rw [hget]
      exact (eq_of_beq hmask').symm
    have h2 := ((presentIds_nodup a).get_inj_iff).mp heq
    exact congrArg Fin.val h2

/-- C1 witness: the theorem applied at a concrete assignment and bundle. -/
theorem addClusters_partitions_witness :
    ∃ gs : ClustersGrp,
      (addClusters { clusters := none } [1, 1, 3]
          [("x", { dtype := "f4", vals := [10, 20, 30] })]).1.clusters = some gs ∧
      (addClusters { clusters := none } [1, 1, 3]
          [("x", { dtype := "f4", vals := [10, 20, 30] })]).2 = none ∧
      gs.groups = (presentIds [1, 1, 3]).enum.map
        (fun p => (getClusterName (p.1 : Int),
          specGroup [1, 1, 3] [("x", { dtype := "f4", vals := [10, 20, 30] })] p.2)) ∧
      (∀ j, j < ([1, 1, 3] : List Int).length →
        ∃! k : Nat, ∃ hk : k < (presentIds [1, 1, 3]).length,
          (eqMask [1, 1, 3] ((presentIds [1, 1, 3]).get ⟨k, hk⟩)).getD j false = true) :=
  addClusters_partitions { clusters := none } [1, 1, 3]
    [("x", { dtype := "f4", vals := [10, 20, 30] })] (by decide) (by decide)

/-- C4: after a successful partition the stored cluster count equals the
number of distinct ids present in the assignment minus one. -/
theorem getNClusters_after_addClusters (st : H5State) (a : List Int) (b : Dict)
    (ha : a ≠ []) (hb : ∀ p ∈ b, p.2.vals.length = a.length) :
    getNClusters (addClusters st a b).1 = .ok ((a.dedup.length : Int) - 1) := by
  obtain ⟨lo, hi, hlo, hhi⟩ := min?_max?_isSome ha
  rw [addClusters_ok hlo hhi hb]
  simp [getNClusters, getClusters, length_presentIds hlo hhi, Bind.bind, Except.bind]

/-- C4 witness: the count after partitioning `[5, 2, 2, 9]` is `3 - 1 = 2`. -/
theorem getNClusters_after_addClusters_witness :
    getNClusters (addClusters { clusters := none } [5, 2, 2, 9] []).1 =
      .ok ((([5, 2, 2, 9] : List Int).dedup.length : Int) - 1) :=
  getNClusters_after_addClusters { clusters := none } [5, 2, 2, 9] []
    (by decide) (by decide)

theorem intRange_cons {lo hi : Int} (h : lo < hi) :
    intRange lo hi = lo :: intRange (lo + 1) hi := by
  have hn : (hi - lo).toNat = (hi - (lo + 1)).toNat + 1 := by omega
  simp only [intRange, hn, List.range_succ_eq_map, List.map_cons, List.map_map]
  refine congrArg₂ List.cons (by simp) ?_
  congr 1
  funext j
  simp only [Function.comp, Nat.succ_eq_add_one]
  push_cast
  ring

/-- C10: after a successful partition the container holds `n_clusters + 1`
groups densely named `cl_0 .. cl_n_clusters` with no gaps, and the group at
index 0 exists with a strictly positive stored size. -/
theorem addClusters_dense_groups (st : H5State) (a : List Int) (b : Dict)
    (ha : a ≠ []) (hb : ∀ p ∈ b, p.2.vals.length = a.length) :
    ∃ gs : ClustersGrp, ∃ n : Int,
      (addClusters st a b).1.clusters = some gs ∧
      gs.n_clusters = some n ∧
      gs.groups.map (fun p => p.1) =
        (List.range gs.groups.length).map (fun (k : Nat) => getClusterName (k : Int)) ∧
      (gs.groups.length : Int) = n + 1 ∧
      (∃ g0 : ClusterGroup, gs.groups.head? = some (getClusterName 0, g0) ∧
        ∃ s : Int, g0.cl_size = some s ∧ 0 < s) := by
  obtain ⟨lo, hi, hlo, hhi⟩ := min?_max?_isSome ha
  rw [addClusters_ok hlo hhi hb]
  have hlomem := (int_min?_eq_some_iff.mp hlo).1
  have hlohi : lo ≤ hi := (int_max?_eq_some_iff.mp hhi).2 lo hlomem
  have hcount : 0 < a.count lo := List.count_pos_iff.mpr hlomem
  have hpres : presentIds a =
      lo :: ((intRange (lo + 1) (hi + 1)).filter (fun i => 0 < a.count i)) := by
    simp only [presentIds, hlo, hhi, intRange_cons (by omega : lo < hi + 1)]
    rw [List.filter_cons_of_pos (by simpa using hcount)]
  refine ⟨_, _, rfl, rfl, ?_, ?_, ?_⟩
  · rw [List.map_map, List.length_map, List.enum_length, ← List.enum_map_fst (presentIds a),
      List.map_map]
    rfl
  · simp only [List.length_map, List.enum_length]
    ring
  · rw [hpres]
    simp only [List.enum, List.enumFrom_cons, List.map_cons, List.head?_cons]
    exact ⟨specGroup a b lo, rfl, (a.count lo : Int), rfl, by exact_mod_cast hcount⟩

/-- C10 witness: the theorem applied at a concrete assignment and bundle. -/
theorem addClusters_dense_groups_witness :
    ∃ gs : ClustersGrp, ∃ n : Int,
      (addClusters { clusters := none } [-1, 2, 2, 7] []).1.clusters = some gs ∧
      gs.n_clusters = some n ∧
      gs.groups.map (fun p => p.1) =
        (List.range gs.groups.length).map (fun (k : Nat) => getClusterName (k : Int)) ∧
      (gs.groups.length : Int) = n + 1 ∧
      (∃ g0 : ClusterGroup, gs.groups.head? = some (getClusterName 0, g0) ∧
        ∃ s : Int, g0.cl_size = some s ∧ 0 < s) :=
  addClusters_dense_groups { clusters := none } [-1, 2, 2, 7] [] (by decide) (by decide)

/-! ### Concrete sample states used by counterexamples and witnesses -/

/-- A sample cluster group with no datasets and size attribute 1. -/
def grpA : ClusterGroup := { dsets := [], cl_size := some 1 }

/-- A sample one-group container. -/
def contA : ClustersGrp := { groups := [("cl_0", grpA)], n_clusters := some 0, info := none }

/-- A sample file state holding `contA`. -/
def stA : H5State := { clusters := some contA }

/-- The file state with no Cluster Container. -/
def stNone : H5State := { clusters := none }

/-- The fresh empty container that `addClusters` creates before validating. -/
def freshState : H5State :=
  { clusters := some { groups := [], n_clusters := none, info := none } }

/-- A record store whose lookups return no fields. -/
def emptyStore : LocStore :=
  { getLocalizationsInFrame := fun _ _ => [], getTracksByIndex := fun _ _ => [] }

/-- A sample auxiliary field of length 3. -/
def fieldF3 : String × NpArray := ("f", { dtype := "i4", vals := [1, 2, 3] })

/-- C3 counterexample: a failing `addClusters` (here a length mismatch on an
assignment of length 2) does NOT leave the pre-existing Cluster Container in
its prior state — the prior container has already been deleted and replaced by
a fresh empty one. -/
theorem addClusters_mutates_on_error :
    (addClusters stA [1, 2] [fieldF3]).2 = some "Incorrect size for data f" ∧
    (addClusters stA [1, 2] [fieldF3]).1 ≠ stA := by
  constructor
  · rfl
  · decide

/-- C3 (amended): invalid input makes `addClusters` fail before the partition
loop — a length mismatch fails on the first offending field (named in the
error), an empty assignment (with all auxiliary fields empty) fails at the
`amin` range computation — but only after the pre-existing container has been
deleted and replaced by a fresh empty one, so the container is NOT left in its
prior state. -/
theorem addClusters_fails_after_delete (st : H5State) (a : List Int) (b : Dict) :
    (∀ p : String × NpArray,
      b.find? (fun q => q.2.vals.length != a.length) = some p →
      addClusters st a b = (freshState, some ("Incorrect size for data " ++ p.1))) ∧
    (a = [] → (∀ q ∈ b, q.2.vals.length = a.length) →
      addClusters st a b =
        (freshState, some "ValueError: zero-size array reduction operation minimum")) := by
  constructor
  · intro p hp
    simp only [addClusters, hp, freshState]
  · intro hnil hq
    have hfind : b.find? (fun q => q.2.vals.length != a.length) = none := by
      rw [List.find?_eq_none]
      intro q hqmem
      simp [hq q hqmem]
    subst hnil
    simp only [addClusters, hfind, List.min?_nil, List.max?_nil, freshState]

/-- C3 witness: both failure modes at concrete inputs. -/
theorem addClusters_fails_after_delete_witness :
    addClusters stNone [4, 4] [fieldF3] =
      (freshState, some "Incorrect size for data f") ∧
    addClusters stNone ([] : List Int) [] =
      (freshState, some "ValueError: zero-size array reduction operation minimum") :=
  ⟨(addClusters_fails_after_delete stNone [4, 4] [fieldF3]).1 fieldF3 (by decide),
   (addClusters_fails_after_delete stNone ([] : List Int) []).2 rfl (by decide)⟩

/-- C6 counterexample: with no Cluster Container, `getClusterGroup` does not
return an absent value — the container lookup itself raises `KeyError`. -/
theorem getClusterGroup_raises_without_container :
    getClusterGroup stNone 0 = .error "KeyError: clusters" := by
  rfl

/-- C6 (amended): when a Cluster Container exists, `getClusterGroup(index)`
returns absent without raising whenever no child group carries the name
`cl_<index>` (in particular for every out-of-range index); when no container
exists the lookup raises instead. -/
theorem getClusterGroup_absent (st : H5State) (gs : ClustersGrp) (index : Int)
    (hst : st.clusters = some gs)
    (hname : getClusterName index ∉ gs.groups.map (fun p => p.1)) :
    getClusterGroup st index = .ok none := by
  simp only [getClusterGroup, getClusters, hst, Bind.bind, Except.bind]
  rw [if_neg]
  · rfl
  · simpa using hname

/-- C6 witness: index 2 on the one-group container `contA`. -/
theorem getClusterGroup_absent_witness :
    getClusterGroup stA 2 = .ok none :=
  getClusterGroup_absent stA contA 2 rfl (by decide)

/-- C7 counterexample: `getClusterData` on an index with no backing group does
not return an empty mapping — `getCluster` iterates Python `None` and raises
`TypeError`. -/
theorem getClusterData_raises_missing_group :
    getClusterData emptyStore stA 1 none =
      .error "TypeError: argument of type NoneType is not iterable" := by
  rfl

/-- C7 (amended): `getClusterData` returns an empty mapping exactly when the
addressed group exists but its cross-reference dictionary has no fields; when
a Cluster Container exists but has no backing group at the index, `getCluster`
iterates Python `None` and raises `TypeError`; and when no Cluster Container
exists at all, the container lookup itself raises `KeyError` before
`getCluster` is reached.  In neither failure case is an empty mapping
returned. -/
theorem getClusterData_empty (store : LocStore) (st : H5State) (index : Int)
    (fields : Option (List String)) :
    (∀ grp : ClusterGroup, getClusterGroup st index = .ok (some grp) →
      grp.dsets = [] → getClusterData store st index fields = .ok []) ∧
    (∀ gs : ClustersGrp, st.clusters = some gs →
      getClusterName index ∉ gs.groups.map (fun p => p.1) →
      getClusterData store st index fields =
        .error "TypeError: argument of type NoneType is not iterable") ∧
    (st.clusters = none →
      getClusterData store st index fields = .error "KeyError: clusters") := by
  refine ⟨?_, ?_, ?_⟩
  · intro grp hgrp hdsets
    simp [getClusterData, hgrp, getCluster, hdsets, Bind.bind, Except.bind,
      Pure.pure, Except.pure]
  · intro gs hgs hname
    have hgrp : getClusterGroup st index = .ok none := by
      simp only [getClusterGroup, getClusters, hgs, Bind.bind, Except.bind]
      rw [if_neg]
      · rfl
      · simpa using hname
    simp [getClusterData, hgrp, getCluster, Bind.bind, Except.bind]
  · intro hnone
    simp [getClusterData, getClusterGroup, getClusters, hnone, Bind.bind,
      Except.bind]

/-- C7 witness: on the one-group container `contA`, index 0 (a group with no
datasets) yields an empty mapping and index 1 (no backing group) raises
`TypeError`; with no container at all, `KeyError` is raised. -/
theorem getClusterData_empty_witness :
    getClusterData emptyStore stA 0 none = .ok [] ∧
    getClusterData emptyStore stA 1 none =
      .error "TypeError: argument of type NoneType is not iterable" ∧
    getClusterData emptyStore stNone 0 none = .error "KeyError: clusters" :=
  ⟨(getClusterData_empty emptyStore stA 0 none).1 grpA rfl rfl,
   (getClusterData_empty emptyStore stA 1 none).2.1 contA rfl (by decide),
   (getClusterData_empty emptyStore stNone 0 none).2.2 rfl⟩

/-- C9 counterexample: with no Cluster Container, `setClusteringInfo` does not
operate independently of partition state — the container lookup raises
`KeyError`. -/
theorem setClusteringInfo_raises_without_container :
    setClusteringInfo stNone "dbscan eps 40" = .error "KeyError: clusters" := by
  rfl

/-- C9 (amended): the free-text description can be set and read back whenever
a Cluster Container exists, independently of its groups; when no container
exists, both operations raise on the container lookup. -/
theorem clusteringInfo_requires_container (st : H5State) (text : String) :
    (∀ gs : ClustersGrp, st.clusters = some gs →
      ∃ st' : H5State, setClusteringInfo st text = .ok st' ∧
        getClusteringInfo st' = .ok text) ∧
    (st.clusters = none →
      setClusteringInfo st text = .error "KeyError: clusters" ∧
      getClusteringInfo st = .error "KeyError: clusters") := by
  constructor
  · intro gs hgs
    refine ⟨{ st with clusters := some { gs with info := some text } }, ?_, ?_⟩
    · simp [setClusteringInfo, getClusters, hgs, Bind.bind, Except.bind,
        Pure.pure, Except.pure]
    · simp [getClusteringInfo, getClusters, Bind.bind, Except.bind]
  · intro hnone
    constructor
    · simp [setClusteringInfo, getClusters, hnone, Bind.bind, Except.bind]
    · simp [getClusteringInfo, getClusters, hnone, Bind.bind, Except.bind]

/-- C9 witness: set and read the description on the container `contA`. -/
theorem clusteringInfo_requires_container_witness :
    ∃ st' : H5State, setClusteringInfo stA "eps 40" = .ok st' ∧
      getClusteringInfo st' = .ok "eps 40" :=
  (clusteringInfo_requires_container stA "eps 40").1 contA rfl

/-- Equality of modelled Python results is decidable (used by the concrete
witnesses below). -/
instance {ε α : Type} [DecidableEq ε] [DecidableEq α] : DecidableEq (Except ε α) :=
  fun x y =>
    match x, y with
    | .ok a, .ok b =>
      if h : a = b then isTrue (by rw [h]) else isFalse (by simp [h])
    | .ok _, .error _ => isFalse (by simp)
    | .error _, .ok _ => isFalse (by simp)
    | .error e, .error f =>
      if h : e = f then isTrue (by rw [h]) else isFalse (by simp [h])

/-- Characterization of a full traversal of the iterator loop: given that
every visited index has a backing group with a stored size and reconstructible
data, the loop yields exactly the indices whose size exceeds `min_size`,
paired with their data, in traversal order. -/
theorem iterLoop_spec (store : LocStore) (st : H5State)
    (fields : Option (List String)) (min_size : Int)
    (g : Int → ClusterGroup) (sz : Int → Int) (d : Int → Dict) :
    ∀ l : List Int,
      (∀ i ∈ l, getClusterGroup st i = .ok (some (g i)) ∧
        (g i).cl_size = some (sz i) ∧
        getClusterData store st i fields = .ok (d i)) →
      iterLoop store st fields min_size l =
        .ok ((l.filter (fun i => min_size < sz i)).map (fun i => (i, d i)))
  | [], _ => rfl
  | i :: rest, h => by
    obtain ⟨hg, hsz, hd⟩ := h i (List.mem_cons_self i rest)
    have ih := iterLoop_spec store st fields min_size g sz d rest
      (fun j hj => h j (List.mem_cons_of_mem i hj))
    by_cases hlt : min_size < sz i
    · rw [List.filter_cons_of_pos (by simpa using hlt), List.map_cons]
      simp [iterLoop, hg, hsz, hd, ih, if_pos hlt, Bind.bind, Except.bind,
        Pure.pure, Except.pure]
    · rw [List.filter_cons_of_neg (by simpa using hlt)]
      simp [iterLoop, hg, hsz, ih, if_neg hlt, Bind.bind, Except.bind]

/-- C5: `clustersIterator(fields, minSize, skipUnclustered)` yields, in
ascending index order, exactly the pairs `(i, getClusterData(i, fields))` for
the indices `i` from `1` (when skipping the unclustered group) or `0` up to
and including the stored cluster count whose stored `cl_size` is strictly
greater than `minSize`; and when no Cluster Container exists it yields zero
elements without raising. -/
theorem clustersIterator_spec (store : LocStore) (st : H5State)
    (fields : Option (List String)) (min_size : Int) (skip_unclustered : Bool)
    (g : Int → ClusterGroup) (sz : Int → Int) (d : Int → Dict) :
    (st.clusters = none →
      clustersIterator store st fields min_size skip_unclustered = .ok []) ∧
    (∀ gs : ClustersGrp, ∀ n : Int, st.clusters = some gs →
      gs.n_clusters = some n →
      (∀ i ∈ intRange (if skip_unclustered then 1 else 0) (n + 1),
        getClusterGroup st i = .ok (some (g i)) ∧
        (g i).cl_size = some (sz i) ∧
        getClusterData store st i fields = .ok (d i)) →
      clustersIterator store st fields min_size skip_unclustered =
        .ok (((intRange (if skip_unclustered then 1 else 0) (n + 1)).filter
            (fun i => min_size < sz i)).map (fun i => (i, d i)))) := by
  constructor
  · intro hnone
    simp [clustersIterator, hasClusters, hnone]
  · intro gs n hgs hn h
    have hhas : hasClusters st = true := by simp [hasClusters, hgs]
    simp only [clustersIterator, hhas, Bool.not_true, Bool.false_eq_true,
      if_false, getNClusters, getClusters, hgs, hn, Bind.bind, Except.bind]
    exact iterLoop_spec store st fields min_size g sz d _ h

/-- A sample two-group container for the iterator witness: the unclustered
group `cl_0` (size 0) and one real cluster `cl_1` of size 3. -/
def contB : ClustersGrp :=
  { groups := [("cl_0", { dsets := [], cl_size := some 0 }),
               ("cl_1", { dsets := [], cl_size := some 3 })],
    n_clusters := some 1, info := none }

/-- The file state holding `contB`. -/
def stB : H5State := { clusters := some contB }

/-- C5 witness: with `min_size = 1` and `skip_unclustered = true` on `stB`,
the iterator yields exactly the size-3 cluster at index 1. -/
theorem clustersIterator_spec_witness :
    clustersIterator emptyStore stB none 1 true =
      .ok (((intRange (if true then 1 else 0) ((1 : Int) + 1)).filter
          (fun i => (1 : Int) < (fun _ : Int => (3 : Int)) i)).map
        (fun i => (i, (fun _ : Int => ([] : Dict)) i))) :=
  (clustersIterator_spec emptyStore stB none 1 true
      (fun _ => { dsets := [], cl_size := some 3 }) (fun _ => 3) (fun _ => [])).2
    contB 1 rfl rfl (by decide)

/-! ### Characterization of the reconstruction loop (C2) -/

/-- The value the spec prescribes for field `f` at member position `i`: the
single-record lookup at key `keys[i]`, offset `locIds[i]`. -/
def joinVal (lk : Int → Dict) (keys locIds : List Int) (f : String) (i : Nat) : Int :=
  (dictGet (lk (keys.getD i 0)) f).vals.getD (locIds.getD i 0).toNat 0

/-- The joined output the spec prescribes: for every field of the first
lookup, a fresh sequence of length `n` whose dtype comes from that first
lookup and whose position `i` holds the single-record value at
`(keys[i], locIds[i])`. -/
def expectedJoin (lk : Int → Dict) (keys locIds : List Int) (n : Nat) : Dict :=
  (lk (keys.getD 0 0)).map (fun p =>
    (p.1, { dtype := p.2.dtype
            vals := (List.range n).map (fun i => joinVal lk keys locIds p.1 i) }))

theorem writeAt_cons (x : String × NpArray) (cl : Dict) (f : String) (i : Nat)
    (v : Int) :
    writeAt (x :: cl) f i v =
      (if x.1 == f then (x.1, { dtype := x.2.dtype, vals := x.2.vals.set i v })
       else x) :: writeAt cl f i v := by
  simp only [writeAt, List.map_cons]

theorem writeAt_of_not_mem (f : String) (i : Nat) (v : Int) :
    ∀ cl : Dict, (∀ r ∈ cl, r.1 ≠ f) → writeAt cl f i v = cl
  | [], _ => rfl
  | r :: t, h => by
    have hr : (r.1 == f) = false := by
      simpa using h r (List.mem_cons_self r t)
    rw [writeAt_cons, if_neg (by simp [hr]),
      writeAt_of_not_mem f i v t (fun q hq => h q (List.mem_cons_of_mem r hq))]

theorem foldl_writeAt_untouched (i : Nat) (w : NpArray → Int) :
    ∀ (locs : List (String × NpArray)) (x : String × NpArray) (cl : Dict),
      (∀ q ∈ locs, q.1 ≠ x.1) →
      locs.foldl (fun acc p => writeAt acc p.1 i (w p.2)) (x :: cl) =
        x :: locs.foldl (fun acc p => writeAt acc p.1 i (w p.2)) cl
  | [], _, _, _ => rfl
  | q :: t, x, cl, h => by
    have hq : (x.1 == q.1) = false := by
      have h2 : x.1 ≠ q.1 := fun hc => (h q (List.mem_cons_self q t)) hc.symm
      simpa using h2
    rw [List.foldl_cons, writeAt_cons, if_neg (by simp [hq]), List.foldl_cons,
      foldl_writeAt_untouched i w t x _ (fun r hr => h r (List.mem_cons_of_mem q hr))]

/-- The inner `for field in locs` loop: starting from a dict holding, for each
entry of `locs0`, a value list `A p`, one pass over `locs` (same field names
in the same order, no duplicates) sets position `i` of every field to the
looked-up value for that field. -/
theorem foldl_writeAt_spec (i : Nat) (w : NpArray → Int) :
    ∀ (locs0 locs : List (String × NpArray)) (A : String × NpArray → List Int),
      locs.map (fun p => p.1) = locs0.map (fun p => p.1) →
      (locs0.map (fun p => p.1)).Nodup →
      locs.foldl (fun acc p => writeAt acc p.1 i (w p.2))
        (locs0.map (fun p => (p.1, { dtype := p.2.dtype, vals := A p }))) =
      locs0.map (fun p =>
        (p.1, { dtype := p.2.dtype, vals := (A p).set i (w (dictGet locs p.1)) }))
  | [], locs, A, hfst, _ => by
    have hnil : locs = [] := by
      have := congrArg List.length hfst
      simpa using this
    subst hnil
    rfl
  | p0 :: t0, (qk, qv) :: t, A, hfst, hnd => by
    simp only [List.map_cons, List.cons.injEq] at hfst
    obtain ⟨hq1, ht⟩ := hfst
    simp only [List.map_cons, List.nodup_cons] at hnd
    obtain ⟨hp0, hnd'⟩ := hnd
    have hnotmem : ∀ s ∈ t0, s.1 ≠ p0.1 := by
      intro s hs hcon
      exact hp0 (hcon ▸ List.mem_map_of_mem (fun p => p.1) hs)
    have htail : writeAt
        (t0.map (fun p => (p.1, { dtype := p.2.dtype, vals := A p }))) qk i (w qv) =
        t0.map (fun p => (p.1, { dtype := p.2.dtype, vals := A p })) := by
      refine writeAt_of_not_mem qk i (w qv) _ ?_
      intro r hr
      obtain ⟨s, hs, rfl⟩ := List.mem_map.mp hr
      rw [hq1]
      exact hnotmem s hs
    rw [List.map_cons, List.foldl_cons, writeAt_cons, if_pos (by simp [hq1]), htail,
      foldl_writeAt_untouched i w t _ _ ?_,
      foldl_writeAt_spec i w t0 t A ht hnd', List.map_cons]
    · refine congrArg₂ List.cons ?_ ?_
      · have hdg : dictGet ((qk, qv) :: t) p0.1 = qv := by
          simp [dictGet, List.lookup_cons, hq1]
        rw [hdg]
      · apply List.map_congr_left
        intro s hs
        have hsq : (s.1 == qk) = false := by
          rw [hq1]
          simpa using hnotmem s hs
        have hdg : dictGet ((qk, qv) :: t) s.1 = dictGet t s.1 := by
          simp only [dictGet, List.lookup_cons, hsq]
        rw [hdg]
    · intro r hr hcon
      have hm : r.1 ∈ t.map (fun p => p.1) := List.mem_map_of_mem (fun p => p.1) hr
      rw [ht] at hm
      rw [hcon] at hm
      exact hp0 hm

theorem set_range_step (n k : Nat) (g : Nat → Int) (hk : k < n) :
    ((List.range n).map (fun i => if i < k then g i else 0)).set k (g k) =
      (List.range n).map (fun i => if i < k + 1 then g i else 0) := by
  apply List.ext_getElem
  · simp
  · intro m h1 h2
    simp only [List.getElem_set, List.getElem_map, List.getElem_range]
    by_cases hm : k = m
    · subst hm
      simp
    · rw [if_neg hm]
      by_cases hmk : m < k
      · rw [if_pos hmk, if_pos (by omega)]
      · rw [if_neg hmk, if_neg (by omega)]

theorem replicate_zero_eq_range_map (n : Nat) (g : Nat → Int) :
    List.replicate n (0 : Int) = (List.range n).map (fun i => if i < 0 then g i else 0) := by
  apply List.ext_getElem <;> simp

/-- Invariant of the reconstruction loop: after the first `k` member positions
(1 ≤ k ≤ n) every output field of the first lookup holds the joined values at
positions below `k` and zeros above. -/
theorem joinFold_partial (lk : Int → Dict) (keys locIds : List Int) (n : Nat)
    (hne : lk (keys.getD 0 0) ≠ [])
    (hnd : ((lk (keys.getD 0 0)).map (fun p => p.1)).Nodup)
    (hf : ∀ i, i < n → (lk (keys.getD i 0)).map (fun p => p.1) =
        (lk (keys.getD 0 0)).map (fun p => p.1)) :
    ∀ k, 1 ≤ k → k ≤ n →
      (List.range k).foldl (joinStep lk keys locIds n) [] =
        (lk (keys.getD 0 0)).map (fun p =>
          (p.1, { dtype := p.2.dtype
                  vals := (List.range n).map (fun i =>
                    if i < k then joinVal lk keys locIds p.1 i else 0) })) := by
  intro k
  induction k with
  | zero => intro h _; omega
  | succ k ih =>
    intro _ hkn
    rcases Nat.eq_zero_or_pos k with hk0 | hkpos
    · subst hk0
      rw [show List.range 1 = [0] from rfl, List.foldl_cons, List.foldl_nil]
      show joinStep lk keys locIds n [] 0 = _
      unfold joinStep allocZeros
      simp only [List.isEmpty_nil, if_true]
      rw [foldl_writeAt_spec 0 (fun arr => arr.vals.getD (locIds.getD 0 0).toNat 0)
        (lk (keys.getD 0 0)) (lk (keys.getD 0 0)) (fun _ => List.replicate n 0) rfl hnd]
      apply List.map_congr_left
      intro p hp
      refine congrArg (fun v => (p.1, ({ dtype := p.2.dtype, vals := v } : NpArray))) ?_
      rw [show (dictGet (lk (keys.getD 0 0)) p.1).vals.getD (locIds.getD 0 0).toNat 0 =
          joinVal lk keys locIds p.1 0 from rfl,
        replicate_zero_eq_range_map n (fun i => joinVal lk keys locIds p.1 i),
        set_range_step n 0 (fun i => joinVal lk keys locIds p.1 i) (by omega)]
    · have hk : k < n := by omega
      rw [List.range_succ, List.foldl_append, ih hkpos (by omega), List.foldl_cons,
        List.foldl_nil]
      unfold joinStep
      have hTne : ((lk (keys.getD 0 0)).map (fun p =>
          (p.1, ({ dtype := p.2.dtype
                   vals := (List.range n).map (fun i =>
                     if i < k then joinVal lk keys locIds p.1 i else 0) } : NpArray)))).isEmpty
          = false := by
        rw [List.isEmpty_eq_false]
        simpa using hne
      simp only [hTne, Bool.false_eq_true, if_false]
      rw [foldl_writeAt_spec k (fun arr => arr.vals.getD (locIds.getD k 0).toNat 0)
        (lk (keys.getD 0 0)) (lk (keys.getD k 0))
        (fun p => (List.range n).map (fun i =>
          if i < k then joinVal lk keys locIds p.1 i else 0))
        (hf k hk) hnd]
      apply List.map_congr_left
      intro p hp
      refine congrArg (fun v => (p.1, ({ dtype := p.2.dtype, vals := v } : NpArray))) ?_
      exact set_range_step n k (fun i => joinVal lk keys locIds p.1 i) hk

/-- The reconstruction loop computes, for every field of the first lookup, a
fresh length-`n` array with that lookup's dtype whose position `i` holds the
single-record value at `(keys[i], locIds[i])`. -/
theorem joinFold_eq_expectedJoin (lk : Int → Dict) (keys locIds : List Int)
    (n : Nat) (hn : 0 < n)
    (hne : lk (keys.getD 0 0) ≠ [])
    (hnd : ((lk (keys.getD 0 0)).map (fun p => p.1)).Nodup)
    (hf : ∀ i, i < n → (lk (keys.getD i 0)).map (fun p => p.1) =
        (lk (keys.getD 0 0)).map (fun p => p.1)) :
    joinFold lk keys locIds n = expectedJoin lk keys locIds n := by
  rw [joinFold, joinFold_partial lk keys locIds n hne hnd hf n hn (le_refl n),
    expectedJoin]
  apply List.map_congr_left
  intro p hp
  refine congrArg (fun v => (p.1, ({ dtype := p.2.dtype, vals := v } : NpArray))) ?_
  apply List.map_congr_left
  intro i hi
  rw [if_pos (List.mem_range.mp hi)]

/-- C2: for an existing cluster group, `getClusterData` detects localization
mode iff the cross-reference contains a `frame` field (else track mode); in
localization mode it performs, for each member position `i`, the single-record
lookup `(frame[i], loc_id[i])` against `getLocalizationsInFrame`, in track
mode the lookup `(track_id[i], loc_id[i])` against `getTracksByIndex`, writing
the values into position `i` of freshly allocated output sequences of length
`n` whose dtype comes from the first lookup (`expectedJoin`), and finally
merges the raw cross-reference fields into the returned mapping. -/
theorem getClusterData_reconstruction (store : LocStore) (st : H5State)
    (index : Int) (fields : Option (List String)) (grp : ClusterGroup)
    (hgrp : getClusterGroup st index = .ok (some grp))
    (hne : grp.dsets ≠ []) :
    ((grp.dsets.map (fun p => p.1)).contains "frame" = true →
      0 < (dictGet grp.dsets "frame").vals.length →
      store.getLocalizationsInFrame ((dictGet grp.dsets "frame").vals.getD 0 0) fields ≠ [] →
      ((store.getLocalizationsInFrame ((dictGet grp.dsets "frame").vals.getD 0 0) fields).map
        (fun p => p.1)).Nodup →
      (∀ i, i < (dictGet grp.dsets "frame").vals.length →
        (store.getLocalizationsInFrame ((dictGet grp.dsets "frame").vals.getD i 0) fields).map
          (fun p => p.1) =
        (store.getLocalizationsInFrame ((dictGet grp.dsets "frame").vals.getD 0 0) fields).map
          (fun p => p.1)) →
      getClusterData store st index fields =
        .ok (mergeDict
          (expectedJoin (fun v => store.getLocalizationsInFrame v fields)
            (dictGet grp.dsets "frame").vals (dictGet grp.dsets "loc_id").vals
            (dictGet grp.dsets "frame").vals.length)
          grp.dsets)) ∧
    ((grp.dsets.map (fun p => p.1)).contains "frame" = false →
      0 < (dictGet grp.dsets "track_id").vals.length →
      store.getTracksByIndex ((dictGet grp.dsets "track_id").vals.getD 0 0) fields ≠ [] →
      ((store.getTracksByIndex ((dictGet grp.dsets "track_id").vals.getD 0 0) fields).map
        (fun p => p.1)).Nodup →
      (∀ i, i < (dictGet grp.dsets "track_id").vals.length →
        (store.getTracksByIndex ((dictGet grp.dsets "track_id").vals.getD i 0) fields).map
          (fun p => p.1) =
        (store.getTracksByIndex ((dictGet grp.dsets "track_id").vals.getD 0 0) fields).map
          (fun p => p.1)) →
      getClusterData store st index fields =
        .ok (mergeDict
          (expectedJoin (fun v => store.getTracksByIndex v fields)
            (dictGet grp.dsets "track_id").vals (dictGet grp.dsets "loc_id").vals
            (dictGet grp.dsets "track_id").vals.length)
          grp.dsets)) := by
  have hie : grp.dsets.isEmpty = false := List.isEmpty_eq_false.mpr hne
  constructor
  · intro hframe h0 hne0 hnd0 hf0
    simp only [getClusterData, hgrp, getCluster, Bind.bind, Except.bind, hie,
      Bool.false_eq_true, if_false, hframe, if_true]
    rw [joinFold_eq_expectedJoin _ _ _ _ h0 hne0 hnd0 hf0]
    rfl
  · intro hframe h0 hne0 hnd0 hf0
    simp only [getClusterData, hgrp, getCluster, Bind.bind, Except.bind, hie,
      Bool.false_eq_true, if_false, hframe]
    rw [joinFold_eq_expectedJoin _ _ _ _ h0 hne0 hnd0 hf0]
    rfl

/-- A sample cross-reference group in localization mode: two members, in
frames 5 and 6 at intra-frame offsets 1 and 0. -/
def grpC : ClusterGroup :=
  { dsets := [("frame", { dtype := "i4", vals := [5, 6] }),
              ("loc_id", { dtype := "i4", vals := [1, 0] })],
    cl_size := some 2 }

/-- A file state holding the single cluster group `grpC` as `cl_0`. -/
def stC : H5State :=
  { clusters := some { groups := [("cl_0", grpC)], n_clusters := some 0, info := none } }

/-- A record store with one `x` field per frame. -/
def storeC : LocStore :=
  { getLocalizationsInFrame := fun v _ =>
      if v == 5 then [("x", { dtype := "f4", vals := [10, 11] })]
      else [("x", { dtype := "f4", vals := [20, 21] })]
    getTracksByIndex := fun _ _ => [] }

/-- C2 witness: the theorem applied to `grpC` inside `stC` against `storeC`
(localization mode). -/
theorem getClusterData_reconstruction_witness :
    getClusterData storeC stC 0 none =
      .ok (mergeDict
        (expectedJoin (fun v => storeC.getLocalizationsInFrame v none)
          (dictGet grpC.dsets "frame").vals (dictGet grpC.dsets "loc_id").vals
          (dictGet grpC.dsets "frame").vals.length)
        grpC.dsets) :=
  (getClusterData_reconstruction storeC stC 0 none grpC rfl (by decide)).1
    (by decide) (by decide) (by decide) (by decide) (by decide)

/-! ### Characterization of `getDataForClustering` (C8) -/

theorem writeSlice_fit {α : Type} (d : List α) (m : Nat) (z : α) (ch : List α) :
    writeSlice (d ++ List.replicate m z) d.length ch =
      d ++ ch ++ List.replicate (m - ch.length) z := by
  unfold writeSlice
  rw [List.take_left, List.drop_append, List.drop_replicate, List.append_assoc]

/-- With `ignore_z` set, the track loop never writes the `z` array. -/
theorem trackFold_z_ignore (pix : ℚ) :
    ∀ (l : List (Nat × FieldBlock)) (s : TrackFill),
      (l.foldl (trackStep pix true) s).z = s.z
  | [], _ => rfl
  | _ :: rest, s => by
    rw [List.foldl_cons, trackFold_z_ignore pix rest _]
    simp [trackStep]

/-- Invariant of the track branch of `getDataForClustering`: starting from
arrays that are a filled prefix followed by zeros, folding the remaining
track groups appends, per group, the pixel-calibrated `x`/`y` chunks (and the
micrometer-to-nanometer scaled `z` chunks when `ignore_z` is false). -/
theorem trackFold_fill (pix : ℚ) (iz : Bool) :
    ∀ (l : List (Nat × FieldBlock)) (m : Nat) (dx dy dz : List ℚ) (s : TrackFill),
      (∀ p ∈ l, p.2.y.length = p.2.x.length ∧ p.2.z.length = p.2.x.length) →
      (l.map (fun p => p.2.x.length)).sum ≤ m →
      s.start = dx.length → dy.length = dx.length → dz.length = dx.length →
      s.x = dx ++ List.replicate m 0 →
      s.y = dy ++ List.replicate m 0 →
      (iz = false → s.z = dz ++ List.replicate m 0) →
      (l.foldl (trackStep pix iz) s).x =
          dx ++ (l.map (fun p => p.2.x.map (fun v => v * pix))).flatten ++
            List.replicate (m - (l.map (fun p => p.2.x.length)).sum) 0 ∧
      (l.foldl (trackStep pix iz) s).y =
          dy ++ (l.map (fun p => p.2.y.map (fun v => v * pix))).flatten ++
            List.replicate (m - (l.map (fun p => p.2.x.length)).sum) 0 ∧
      (iz = false → (l.foldl (trackStep pix iz) s).z =
          dz ++ (l.map (fun p => p.2.z.map (fun v => v * 1000))).flatten ++
            List.replicate (m - (l.map (fun p => p.2.x.length)).sum) 0)
  | [], m, dx, dy, dz, s, _, _, _, _, _, hsx, hsy, hsz => by
    refine ⟨?_, ?_, ?_⟩
    · simpa using hsx
    · simpa using hsy
    · intro hiz
      simpa using hsz hiz
  | (j, t) :: rest, m, dx, dy, dz, s, hlen, hsum, hstart, hdy, hdz, hsx, hsy, hsz => by
    obtain ⟨hy, hz⟩ := hlen (j, t) (List.mem_cons_self _ _)
    have hsum' : t.x.length + (rest.map (fun p => p.2.x.length)).sum ≤ m := by
      simpa using hsum
    have hxc : (t.x.map (fun v => v * pix)).length = t.x.length := by simp
    have hyc : (t.y.map (fun v => v * pix)).length = t.x.length := by simp [hy]
    have hzc : (t.z.map (fun v => v * 1000)).length = t.x.length := by simp [hz]
    have hsx' : (trackStep pix iz s (j, t)).x =
        (dx ++ t.x.map (fun v => v * pix)) ++ List.replicate (m - t.x.length) 0 := by
      simp only [trackStep]
      rw [hsx, hstart, writeSlice_fit, hxc, List.append_assoc]
    have hsy' : (trackStep pix iz s (j, t)).y =
        (dy ++ t.y.map (fun v => v * pix)) ++ List.replicate (m - t.x.length) 0 := by
      simp only [trackStep]
      rw [hsy, hstart, show dx.length = dy.length from hdy.symm, writeSlice_fit, hyc,
        List.append_assoc]
    have hsz' : iz = false → (trackStep pix iz s (j, t)).z =
        (dz ++ t.z.map (fun v => v * 1000)) ++ List.replicate (m - t.x.length) 0 := by
      intro hiz
      subst hiz
      simp only [trackStep, Bool.not_false, if_true]
      rw [hsz rfl, hstart, show dx.length = dz.length from hdz.symm, writeSlice_fit, hzc,
        List.append_assoc]
    have hstart' : (trackStep pix iz s (j, t)).start =
        (dx ++ t.x.map (fun v => v * pix)).length := by
      simp only [trackStep]
      rw [hstart, List.length_append, hxc]
    have ih := trackFold_fill pix iz rest (m - t.x.length)
      (dx ++ t.x.map (fun v => v * pix)) (dy ++ t.y.map (fun v => v * pix))
      (dz ++ t.z.map (fun v => v * 1000)) (trackStep pix iz s (j, t))
      (fun p hp => hlen p (List.mem_cons_of_mem _ hp))
      (by omega) hstart'
      (by simp only [List.length_append, hyc, hxc, hdy])
      (by simp only [List.length_append, hzc, hxc, hdz])
      hsx' hsy' hsz'
    obtain ⟨ihx, ihy, ihz⟩ := ih
    have harith : m - t.x.length - (rest.map (fun p => p.2.x.length)).sum =
        m - (t.x.length + (rest.map (fun p => p.2.x.length)).sum) := by omega
    refine ⟨?_, ?_, ?_⟩
    · rw [List.foldl_cons, ihx]
      simp only [List.map_cons, List.sum_cons, List.flatten_cons, List.append_assoc, harith]
    · rw [List.foldl_cons, ihy]
      simp only [List.map_cons, List.sum_cons, List.flatten_cons, List.append_assoc, harith]
    · intro hiz
      rw [List.foldl_cons, ihz hiz]
      simp only [List.map_cons, List.sum_cons, List.flatten_cons, List.append_assoc, harith]

/-- With `ignore_z` set, the localization loop never writes the `z` array. -/
theorem locFold_z_ignore (pix : ℚ) :
    ∀ (l : List (Int × FieldBlock)) (s : LocFill),
      (l.foldl (locStep pix true) s).z = s.z
  | [], _ => rfl
  | _ :: rest, s => by
    rw [List.foldl_cons, locFold_z_ignore pix rest _]
    simp [locStep]

/-- Invariant of the localization branch of `getDataForClustering`, the
analogue of `trackFold_fill`. -/
theorem locFold_fill (pix : ℚ) (iz : Bool) :
    ∀ (l : List (Int × FieldBlock)) (m : Nat) (dx dy dz : List ℚ) (s : LocFill),
      (∀ p ∈ l, p.2.y.length = p.2.x.length ∧ p.2.z.length = p.2.x.length) →
      (l.map (fun p => p.2.x.length)).sum ≤ m →
      s.start = dx.length → dy.length = dx.length → dz.length = dx.length →
      s.x = dx ++ List.replicate m 0 →
      s.y = dy ++ List.replicate m 0 →
      (iz = false → s.z = dz ++ List.replicate m 0) →
      (l.foldl (locStep pix iz) s).x =
          dx ++ (l.map (fun p => p.2.x.map (fun v => v * pix))).flatten ++
            List.replicate (m - (l.map (fun p => p.2.x.length)).sum) 0 ∧
      (l.foldl (locStep pix iz) s).y =
          dy ++ (l.map (fun p => p.2.y.map (fun v => v * pix))).flatten ++
            List.replicate (m - (l.map (fun p => p.2.x.length)).sum) 0 ∧
      (iz = false → (l.foldl (locStep pix iz) s).z =
          dz ++ (l.map (fun p => p.2.z.map (fun v => v * 1000))).flatten ++
            List.replicate (m - (l.map (fun p => p.2.x.length)).sum) 0)
  | [], m, dx, dy, dz, s, _, _, _, _, _, hsx, hsy, hsz => by
    refine ⟨?_, ?_, ?_⟩
    · simpa using hsx
    · simpa using hsy
    · intro hiz
      simpa using hsz hiz
  | (j, t) :: rest, m, dx, dy, dz, s, hlen, hsum, hstart, hdy, hdz, hsx, hsy, hsz => by
    obtain ⟨hy, hz⟩ := hlen (j, t) (List.mem_cons_self _ _)
    have hsum' : t.x.length + (rest.map (fun p => p.2.x.length)).sum ≤ m := by
      simpa using hsum
    have hxc : (t.x.map (fun v => v * pix)).length = t.x.length := by simp
    have hyc : (t.y.map (fun v => v * pix)).length = t.x.length := by simp [hy]
    have hzc : (t.z.map (fun v => v * 1000)).length = t.x.length := by simp [hz]
    have hsx' : (locStep pix iz s (j, t)).x =
        (dx ++ t.x.map (fun v => v * pix)) ++ List.replicate (m - t.x.length) 0 := by
      simp only [locStep]
      rw [hsx, hstart, writeSlice_fit, hxc, List.append_assoc]
    have hsy' : (locStep pix iz s (j, t)).y =
        (dy ++ t.y.map (fun v => v * pix)) ++ List.replicate (m - t.x.length) 0 := by
      simp only [locStep]
      rw [hsy, hstart, show dx.length = dy.length from hdy.symm, writeSlice_fit, hyc,
        List.append_assoc]
    have hsz' : iz = false → (locStep pix iz s (j, t)).z =
        (dz ++ t.z.map (fun v => v * 1000)) ++ List.replicate (m - t.x.length) 0 := by
      intro hiz
      subst hiz
      simp only [locStep, Bool.not_false, if_true]
      rw [hsz rfl, hstart, show dx.length = dz.length from hdz.symm, writeSlice_fit, hzc,
        List.append_assoc]
    have hstart' : (locStep pix iz s (j, t)).start =
        (dx ++ t.x.map (fun v => v * pix)).length := by
      simp only [locStep]
      rw [hstart, List.length_append, hxc]
    have ih := locFold_fill pix iz rest (m - t.x.length)
      (dx ++ t.x.map (fun v => v * pix)) (dy ++ t.y.map (fun v => v * pix))
      (dz ++ t.z.map (fun v => v * 1000)) (locStep pix iz s (j, t))
      (fun p hp => hlen p (List.mem_cons_of_mem _ hp))
      (by omega) hstart'
      (by simp only [List.length_append, hyc, hxc, hdy])
      (by simp only [List.length_append, hzc, hxc, hdz])
      hsx' hsy' hsz'
    obtain ⟨ihx, ihy, ihz⟩ := ih
    have harith : m - t.x.length - (rest.map (fun p => p.2.x.length)).sum =
        m - (t.x.length + (rest.map (fun p => p.2.x.length)).sum) := by omega
    refine ⟨?_, ?_, ?_⟩
    · rw [List.foldl_cons, ihx]
      simp only [List.map_cons, List.sum_cons, List.flatten_cons, List.append_assoc, harith]
    · rw [List.foldl_cons, ihy]
      simp only [List.map_cons, List.sum_cons, List.flatten_cons, List.append_assoc, harith]
    · intro hiz
      rw [List.foldl_cons, ihz hiz]
      simp only [List.map_cons, List.sum_cons, List.flatten_cons, List.append_assoc, harith]

theorem enum_map_snd_comp {α β : Type} (l : List α) (g : α → β) :
    l.enum.map (fun p => g p.2) = l.map g := by
  conv_rhs => rw [← List.enum_map_snd l]
  rw [List.map_map]
  rfl

/-- C8: `getDataForClustering` converts x and y from pixels to nanometers by
multiplying with the store's calibration factor, and converts z from
micrometers to nanometers (times 1000) only when `ignore_z` is false (i.e.
`includeZ`), leaving z zero-filled when `ignore_z` is true — in both the track
branch and the localization branch. -/
theorem getDataForClustering_conversion (store : ClStore) (ignore_z : Bool) :
    (store.hasTracksB = true →
      (∀ t ∈ store.tracks, t.y.length = t.x.length ∧ t.z.length = t.x.length) →
      (store.tracks.map (fun t => t.x.length)).sum = store.nTracks →
      (getDataForClustering store ignore_z).x =
          (store.tracks.map (fun t => t.x.map (fun v => v * store.pixelSize))).flatten ∧
      (getDataForClustering store ignore_z).y =
          (store.tracks.map (fun t => t.y.map (fun v => v * store.pixelSize))).flatten ∧
      (getDataForClustering store ignore_z).z =
          (if ignore_z then List.replicate store.nTracks 0
           else (store.tracks.map (fun t => t.z.map (fun v => v * 1000))).flatten)) ∧
    (store.hasTracksB = false →
      (∀ p ∈ store.locFrames, p.2.y.length = p.2.x.length ∧
        p.2.z.length = p.2.x.length) →
      (store.locFrames.map (fun p => p.2.x.length)).sum = store.nLocalizations →
      (getDataForClustering store ignore_z).x =
          (store.locFrames.map (fun p => p.2.x.map (fun v => v * store.pixelSize))).flatten ∧
      (getDataForClustering store ignore_z).y =
          (store.locFrames.map (fun p => p.2.y.map (fun v => v * store.pixelSize))).flatten ∧
      (getDataForClustering store ignore_z).z =
          (if ignore_z then List.replicate store.nLocalizations 0
           else (store.locFrames.map (fun p => p.2.z.map (fun v => v * 1000))).flatten)) := by
  constructor
  · intro htr hlen hsum
    have hplen : ∀ p ∈ store.tracks.enum,
        p.2.y.length = p.2.x.length ∧ p.2.z.length = p.2.x.length := by
      intro p hp
      apply hlen
      have h2 := List.mem_map_of_mem Prod.snd hp
      rwa [List.enum_map_snd] at h2
    have hlensum : store.tracks.enum.map (fun p => p.2.x.length) =
        store.tracks.map (fun t => t.x.length) :=
      enum_map_snd_comp store.tracks (fun t => t.x.length)
    have hsum' : (store.tracks.enum.map (fun p => p.2.x.length)).sum ≤ store.nTracks := by
      rw [hlensum, hsum]
    have hfill := trackFold_fill store.pixelSize ignore_z store.tracks.enum store.nTracks
      [] [] []
      { start := 0
        loc_id := List.replicate store.nTracks 0
        track_id := List.replicate store.nTracks 0
        x := List.replicate store.nTracks 0
        y := List.replicate store.nTracks 0
        z := List.replicate store.nTracks 0
        c := List.replicate store.nTracks 0 }
      hplen hsum' rfl rfl rfl (List.nil_append _).symm (List.nil_append _).symm
      (fun _ => (List.nil_append _).symm)
    obtain ⟨hx, hy, hz⟩ := hfill
    rw [hlensum, hsum, Nat.sub_self, List.replicate_zero, List.append_nil,
      List.nil_append,
      enum_map_snd_comp store.tracks (fun t => t.x.map (fun v => v * store.pixelSize))] at hx
    rw [hlensum, hsum, Nat.sub_self, List.replicate_zero, List.append_nil,
      List.nil_append,
      enum_map_snd_comp store.tracks (fun t => t.y.map (fun v => v * store.pixelSize))] at hy
    refine ⟨?_, ?_, ?_⟩
    · simp only [getDataForClustering, htr, if_true]
      exact hx
    · simp only [getDataForClustering, htr, if_true]
      exact hy
    · simp only [getDataForClustering, htr, if_true]
      cases hiz : ignore_z with
      | false =>
        have hz' := hz hiz
        rw [hiz] at hz'
        rw [hlensum, hsum, Nat.sub_self, List.replicate_zero, List.append_nil,
          List.nil_append,
          enum_map_snd_comp store.tracks (fun t => t.z.map (fun v => v * 1000))] at hz'
        rw [if_neg (by simp)]
        exact hz'
      | true =>
        rw [if_pos rfl]
        exact trackFold_z_ignore store.pixelSize store.tracks.enum _
  · intro htr hlen hsum
    have hsum' : (store.locFrames.map (fun p => p.2.x.length)).sum ≤
        store.nLocalizations := by
      rw [hsum]
    have hfill := locFold_fill store.pixelSize ignore_z store.locFrames
      store.nLocalizations [] [] []
      { start := 0
        frame := List.replicate store.nLocalizations 0
        loc_id := List.replicate store.nLocalizations 0
        x := List.replicate store.nLocalizations 0
        y := List.replicate store.nLocalizations 0
        z := List.replicate store.nLocalizations 0
        c := List.replicate store.nLocalizations 0 }
      hlen hsum' rfl rfl rfl (List.nil_append _).symm (List.nil_append _).symm
      (fun _ => (List.nil_append _).symm)
    obtain ⟨hx, hy, hz⟩ := hfill
    rw [hsum, Nat.sub_self, List.replicate_zero, List.append_nil, List.nil_append] at hx
    rw [hsum, Nat.sub_self, List.replicate_zero, List.append_nil, List.nil_append] at hy
    refine ⟨?_, ?_, ?_⟩
    · simp only [getDataForClustering, htr, Bool.false_eq_true, if_false]
      exact hx
    · simp only [getDataForClustering, htr, Bool.false_eq_true, if_false]
      exact hy
    · simp only [getDataForClustering, htr, Bool.false_eq_true, if_false]
      cases hiz : ignore_z with
      | false =>
        have hz' := hz hiz
        rw [hiz] at hz'
        rw [hsum, Nat.sub_self, List.replicate_zero, List.append_nil,
          List.nil_append] at hz'
        rw [if_neg (by simp)]
        exact hz'
      | true =>
        rw [if_pos rfl]
        exact locFold_z_ignore store.pixelSize store.locFrames _

/-- A sample store in track mode: two track groups with uniform field lengths
2 and 1, three tracks in total. -/
def storeD : ClStore :=
  { pixelSize := 160
    hasTracksB := true
    nTracks := 3
    nLocalizations := 0
    tracks := [{ x := [1, 2], y := [3, 4], z := [5, 6], category := [7, 8] },
               { x := [9], y := [10], z := [11], category := [12] }]
    locFrames := [] }

/-- C8 witness: the theorem applied to `storeD` with `ignore_z = false`. -/
theorem getDataForClustering_conversion_witness :
    (getDataForClustering storeD false).x =
        (storeD.tracks.map (fun t => t.x.map (fun v => v * storeD.pixelSize))).flatten ∧
    (getDataForClustering storeD false).y =
        (storeD.tracks.map (fun t => t.y.map (fun v => v * storeD.pixelSize))).flatten ∧
    (getDataForClustering storeD false).z =
        (if false then List.replicate storeD.nTracks 0
         else (storeD.tracks.map (fun t => t.z.map (fun v => v * 1000))).flatten) :=
  (getDataForClustering_conversion storeD false).1 rfl (by decide) (by decide)

end StormClusters
